import Mathlib

/-!
Verification of the Job Engine (src/ava/job/engine.py).

The Python module is shallowly embedded: dictionaries become association
lists over `String` keys, the event bus becomes an explicit list of emitted
actions, and the dynamic pieces the engine merely invokes (the `ast.parse`
/ validator / `compile` pipeline, and the `exec` of a compiled unit) become
function parameters whose success or failure the engine code branches on,
exactly as the Python `try`/`except` structure does.
-/

namespace AvaJob

/-- Values stored in a job scope's bindings.  `avaHandle` stands for the
`JobContext` object that `JobContext.__init__` seeds under the key `"ava"`;
`emptyDict` stands for the literal `{}` dictionary. -/
inductive Value where
  | avaHandle : Value
  | emptyDict : Value
  | nat : Nat → Value
  | str : String → Value
deriving DecidableEq, Repr

/-- A Python dictionary with string keys, as an association list. -/
abbrev Dict (α : Type) := List (String × α)

/-- `d[k]` lookup returning an option (first matching key). -/
def dlookup {α : Type} (d : Dict α) (k : String) : Option α :=
  match d with
  | [] => none
  | (k', v) :: rest => if k' = k then some v else dlookup rest k

/-- `k in d` membership test. -/
def dmem {α : Type} (d : Dict α) (k : String) : Bool :=
  (dlookup d k).isSome

/-- `d[k] = v` assignment: replace in place if present, else append. -/
def dinsert {α : Type} (d : Dict α) (k : String) (v : α) : Dict α :=
  match d with
  | [] => [(k, v)]
  | (k', v') :: rest =>
      if k' = k then (k', v) :: rest else (k', v') :: dinsert rest k v

/-- `del d[k]` (first matching key). -/
def derase {α : Type} (d : Dict α) (k : String) : Dict α :=
  match d with
  | [] => []
  | (k', v') :: rest =>
      if k' = k then rest else (k', v') :: derase rest k

/-- A Python exception value: `message` models the Python 2 `.message`
attribute (absent when `None`), `toStr` models `str(ex)`. -/
structure Exn where
  message : Option String
  toStr : String
deriving DecidableEq, Repr

/-- The `KeyError(k)` raised by a failed `job['script']` lookup: in
Python 2 its `.message` is the key and `str` wraps it in quotes. -/
def keyError (k : String) : Exn :=
  { message := some k, toStr := "'" ++ k ++ "'" }

/-- Parsed AST and compiled code objects are opaque tokens. -/
abbrev Ast := String

/-- A compiled executable unit (result of `compile`), opaque. -/
abbrev Code := String

/-- The parse / validate / compile stages that `submit_job` and
`_load_jobs` run, as abstract fallible functions (the validator's own
source is out of scope; the engine only observes success or an
exception). -/
structure Pipeline where
  parse : String → Except Exn Ast
  validate : Ast → Except Exn Unit
  compile0 : Ast → Except Exn Code

/-- `JobInfo`: immutable descriptor `{name, script, code}`. -/
structure JobInfo where
  name : String
  script : String
  code : Code
deriving DecidableEq, Repr

/-- Scope bindings: the `_scope` dictionary of a `JobContext`. -/
abbrev Bindings := Dict Value

/-- `JobContext`: per-job scope with result and exception slots. -/
structure JobContext where
  job_name : String
  scope : Bindings
  exception : Option Exn
  result : Option Value
deriving DecidableEq, Repr

/-- `JobContext.__init__`: fresh scope seeded with the `"ava"` handle,
`exception = None`, `result = None`. -/
def JobContext.init (job_name : String) : JobContext :=
  { job_name := job_name
    scope := [("ava", Value.avaHandle)]
    exception := none
    result := none }

/-- A `JobRunner` registry entry: the descriptor it runs, the name of its
context, and whether `start()` has been called on it. -/
structure JobRunner where
  info : JobInfo
  ctxName : String
  started : Bool
deriving DecidableEq, Repr

/-- The four event-bus signals the engine emits. -/
inductive Event where
  | JOB_ACCEPTED : String → Event
  | JOB_REJECTED : String → Event
  | JOB_FINISHED : JobContext → Event
  | JOB_FAILED : JobContext → Event
deriving DecidableEq, Repr

/-- Externally observable effects of an engine operation, in program
order: registry writes, runner starts, bus sends, and log records. -/
inductive Action where
  | setJob : String → Action
  | setContext : String → Action
  | setRunner : String → Action
  | startRunner : String → Action
  | send : Event → Action
  | logError : String → Action
deriving DecidableEq, Repr

/-- Whether an action is an event-bus emission. -/
def Action.isSend : Action → Bool
  | Action.send _ => true
  | _ => false

/-- The engine's three registries (`self.jobs`, `self.contexts`,
`self.runners`). -/
structure EngineState where
  jobs : Dict JobInfo
  contexts : Dict JobContext
  runners : Dict JobRunner
deriving DecidableEq, Repr

/-- An engine with empty registries. -/
def EngineState.empty : EngineState :=
  { jobs := [], contexts := [], runners := [] }

/-- `JobEngine._gen_job_name`: draw candidate names (`'J'` + 8 hex digits
from a UUID, modelled as a supplied candidate stream) until one is not a
key of `self.jobs`.  Returns `none` only when the whole finite stream
collides, a case the Python loop would keep retrying past. -/
def gen_job_name (jobs : Dict JobInfo) (cands : List String) : Option String :=
  cands.find? (fun n => !(dmem jobs n))

/-- The reason string computed in `submit_job`'s `except` clause:
`ex.message` when it is not `None` and non-empty, else `str(ex)`. -/
def reasonOf (ex : Exn) : String :=
  match ex.message with
  | some m => if m.length > 0 then m else ex.toStr
  | none => ex.toStr

/-- `job['script']`: dictionary lookup that raises `KeyError('script')`
when the field is missing. -/
def getScript (job : Dict String) : Except Exn String :=
  match dlookup job "script" with
  | some s => Except.ok s
  | none => Except.error (keyError "script")

/-- The body of `submit_job`'s `try` block up to `compile`, threading the
first exception out. -/
def submitPipeline (pl : Pipeline) (job : Dict String) :
    Except Exn (String × Code) :=
  match getScript job with
  | Except.error ex => Except.error ex
  | Except.ok script =>
    match pl.parse script with
    | Except.error ex => Except.error ex
    | Except.ok node =>
      match pl.validate node with
      | Except.error ex => Except.error ex
      | Except.ok _ =>
        match pl.compile0 node with
        | Except.error ex => Except.error ex
        | Except.ok acode => Except.ok (script, acode)

/-- `JobEngine.submit_job(job)`: generate a fresh name, run
parse/validate/compile; on success register descriptor, context and
runner, start the runner, emit `JOB_ACCEPTED` and return the name; on any
exception emit `JOB_REJECTED` with the computed reason and return `None`.
Returns the new state, the returned name, and the effect trace. -/
def submit_job (pl : Pipeline) (st : EngineState) (job : Dict String)
    (cands : List String) : EngineState × Option String × List Action :=
  match gen_job_name st.jobs cands with
  | none => (st, none, [])
  | some job_name =>
    match submitPipeline pl job with
    | Except.error ex =>
        (st, none, [Action.logError job_name,
                    Action.send (Event.JOB_REJECTED (reasonOf ex))])
    | Except.ok (script, acode) =>
        let job_info : JobInfo := ⟨job_name, script, acode⟩
        let ctx := JobContext.init job_name
        let runner : JobRunner := ⟨job_info, job_name, true⟩
        ({ jobs := dinsert st.jobs job_name job_info
           contexts := dinsert st.contexts job_name ctx
           runners := dinsert st.runners job_name runner },
         some job_name,
         [Action.setJob job_name, Action.setContext job_name,
          Action.setRunner job_name, Action.startRunner job_name,
          Action.send (Event.JOB_ACCEPTED job_name)])

/-- `JobEngine.job_done(job_context)`: delete the name from `self.jobs`
and `self.runners` when present (the Python code has no deletion from
`self.contexts`), then emit `JOB_FAILED` if the context's exception slot
is set, else `JOB_FINISHED`. -/
def job_done (st : EngineState) (ctx : JobContext) :
    EngineState × List Action :=
  let name := ctx.job_name
  let jobs' := if dmem st.jobs name then derase st.jobs name else st.jobs
  let runners' :=
    if dmem st.runners name then derase st.runners name else st.runners
  let ev :=
    match ctx.exception with
    | some _ => Event.JOB_FAILED ctx
    | none => Event.JOB_FINISHED ctx
  ({ jobs := jobs', contexts := st.contexts, runners := runners' },
   [Action.send ev])

/-! ## Runner execution -/

/-- Outcome of `exec code in global_scope, local_scope`: the compiled unit
either returns normally, raises an `Exception` (the class the runner's
`except` clause catches), or exits some other way (a non-`Exception`
`BaseException` such as a greenlet kill — not caught by the `except`, but
the `finally` still runs).  In every case the mutated global and local
namespaces are reported, since `exec` mutates them in place. -/
inductive ExecResult where
  | ok : Bindings → Bindings → ExecResult
  | exn : Exn → Bindings → Bindings → ExecResult
  | abort : Bindings → Bindings → ExecResult
deriving DecidableEq, Repr

/-- The behaviour of a compiled unit under `exec`, as a function of the
global and local namespaces it is handed. -/
abbrev ExecBehavior := Bindings → Bindings → ExecResult

/-- The global namespace `JobRunner._run` constructs for `exec`: a fresh
dictionary holding only `__builtin__` bound to an empty dictionary. -/
def freshGlobals : Bindings := [("__builtin__", Value.emptyDict)]

/-- What one `JobRunner._run` call did: the context as mutated by the run,
how many times `engine.job_done` was invoked, whether anything propagated
out of `_run`, and which namespaces were handed to `exec`. -/
structure RunResult where
  ctx : JobContext
  doneCalls : Nat
  propagated : Bool
  execGlobals : Bindings
  execLocals : Bindings
deriving DecidableEq, Repr

/-- `JobRunner._run`: build the fresh global scope, `exec` the compiled
unit with the context's `_scope` as locals; on normal return copy the
`"result"` binding (if any) into `ctx.result`; on a caught `Exception`
store it into `ctx.exception`; in every case the `finally` clause invokes
`engine.job_done` exactly once. -/
def runner_run (beh : ExecBehavior) (ctx : JobContext) : RunResult :=
  match beh freshGlobals ctx.scope with
  | ExecResult.ok _ l1 =>
      let ctx1 := { ctx with scope := l1 }
      let ctx2 :=
        if dmem l1 "result" then
          { ctx1 with result := dlookup l1 "result" }
        else ctx1
      ⟨ctx2, 1, false, freshGlobals, ctx.scope⟩
  | ExecResult.exn e _ l1 =>
      ⟨{ ctx with scope := l1, exception := some e }, 1, false,
        freshGlobals, ctx.scope⟩
  | ExecResult.abort _ l1 =>
      ⟨{ ctx with scope := l1 }, 1, true, freshGlobals, ctx.scope⟩

/-- A runner's full lifetime against the engine: run the compiled unit,
then the `finally`-guaranteed `job_done` call with the mutated context. -/
def runner_complete (beh : ExecBehavior) (st : EngineState)
    (ctx : JobContext) : EngineState × RunResult × List Action :=
  let r := runner_run beh ctx
  let (st', acts) := job_done st r.ctx
  (st', r, acts)

/-! ## Discovery -/

/-- An ASCII letter, the glob class `[a-zA-Z]`. -/
def isAlphaCh (c : Char) : Bool :=
  ('a' ≤ c && c ≤ 'z') || ('A' ≤ c && c ≤ 'Z')

/-- The glob class `[a-zA-Z0-9_]`. -/
def isWordCh (c : Char) : Bool :=
  isAlphaCh c || ('0' ≤ c && c ≤ '9') || c = '_'

/-- Whether a filename matches the glob pattern
`[a-zA-Z][a-zA-Z0-9_]*.py` used by `JobEngine._scan_jobs`: one letter, one
word character, then `*` — any run of characters other than the path
separator — and the literal suffix `.py`. -/
def matchesGlob (s : String) : Bool :=
  let cs := s.toList
  decide (5 ≤ cs.length) &&
  (match cs with
   | c1 :: c2 :: _ => isAlphaCh c1 && isWordCh c2
   | _ => false) &&
  decide (cs.drop (cs.length - 3) = ['.', 'p', 'y']) &&
  ((cs.drop 2).take (cs.length - 5)).all (fun c => c ≠ '/')

/-- Full match of the identifier pattern `[A-Za-z][A-Za-z0-9_]*` (the
pattern the specification ascribes to file stems). -/
def matchesIdent (s : String) : Bool :=
  match s.toList with
  | [] => false
  | c :: rest => isAlphaCh c && rest.all isWordCh

/-- `os.path.splitext(name)[0]`: the name without its last extension. -/
def splitextStem (s : String) : String :=
  let cs := s.toList
  match (cs.reverse.findIdx? (fun c => c = '.')) with
  | none => s
  | some i => String.mk (cs.take (cs.length - 1 - i))

/-- Decidable equality for `Except`, used to evaluate loader states. -/
instance {ε α : Type} [DecidableEq ε] [DecidableEq α] :
    DecidableEq (Except ε α) := fun x y =>
  match x, y with
  | Except.ok a, Except.ok b =>
      if h : a = b then isTrue (by rw [h]) else
        isFalse (fun hc => by cases hc; exact h rfl)
  | Except.error a, Except.error b =>
      if h : a = b then isTrue (by rw [h]) else
        isFalse (fun hc => by cases hc; exact h rfl)
  | Except.ok _, Except.error _ => isFalse (fun hc => by cases hc)
  | Except.error _, Except.ok _ => isFalse (fun hc => by cases hc)

/-- A file the discovery scan may visit: its base name and the outcome of
`open(s).read()`. -/
structure FileEntry where
  basename : String
  content : Except Exn String
deriving DecidableEq, Repr

/-- The per-file body of `_load_jobs`: read, parse, validate, compile. -/
def loadPipeline (pl : Pipeline) (f : FileEntry) :
    Except Exn (String × Code) :=
  match f.content with
  | Except.error ex => Except.error ex
  | Except.ok script =>
    match pl.parse script with
    | Except.error ex => Except.error ex
    | Except.ok node =>
      match pl.validate node with
      | Except.error ex => Except.error ex
      | Except.ok _ =>
        match pl.compile0 node with
        | Except.error ex => Except.error ex
        | Except.ok acode => Except.ok (script, acode)

/-- One iteration of `_load_jobs`'s loop: skip `__init__.py`; otherwise
derive the stem name and on pipeline success register the descriptor in
`self.jobs` and a fresh context in `self.contexts` (runners are not
touched here); on any exception log and move on. -/
def load_one (pl : Pipeline) (st : EngineState) (f : FileEntry) :
    EngineState × List Action :=
  if f.basename = "__init__.py" then (st, [])
  else
    let name := splitextStem f.basename
    match loadPipeline pl f with
    | Except.ok (script, acode) =>
        ({ st with
            jobs := dinsert st.jobs name ⟨name, script, acode⟩
            contexts := dinsert st.contexts name (JobContext.init name) },
         [Action.setJob name, Action.setContext name])
    | Except.error _ => (st, [Action.logError name])

/-- The loop of `_load_jobs` over an already-scanned file list. -/
def load_many (pl : Pipeline) (st : EngineState) :
    List FileEntry → EngineState × List Action
  | [] => (st, [])
  | f :: rest =>
      let (st1, a1) := load_one pl st f
      let (st2, a2) := load_many pl st1 rest
      (st2, a1 ++ a2)

/-- `JobEngine._scan_jobs`: the files of the jobs directory selected by
the glob `[a-zA-Z][a-zA-Z0-9_]*.py`. -/
def scan_jobs (dir : List FileEntry) : List FileEntry :=
  dir.filter (fun f => matchesGlob f.basename)

/-- `JobEngine._load_jobs`: run the loader loop over the scan result. -/
def load_jobs (pl : Pipeline) (st : EngineState) (dir : List FileEntry) :
    EngineState × List Action :=
  load_many pl st (scan_jobs dir)

/-- The runner-starting loop at the head of `JobEngine._run_jobs`: for
every registered job name, construct a runner and start it. -/
def run_jobs_start (st : EngineState) : EngineState :=
  { st with
      runners :=
        st.jobs.foldl
          (fun rs p => dinsert rs p.1 ⟨p.2, p.1, true⟩) st.runners }

/-! ## Concrete instances used to exercise the model -/

/-- A pipeline on which every script parses, validates and compiles (the
AST and code tokens are the script itself). -/
def trivPipeline : Pipeline :=
  { parse := fun s => Except.ok s
    validate := fun _ => Except.ok ()
    compile0 := fun a => Except.ok a }

/-- A syntax-error exception as raised by `ast.parse`. -/
def parseFailExn : Exn :=
  { message := some "invalid syntax", toStr := "invalid syntax (line 1)" }

/-- A pipeline whose parse stage always raises `parseFailExn`. -/
def badParsePipeline : Pipeline :=
  { parse := fun _ => Except.error parseFailExn
    validate := fun _ => Except.ok ()
    compile0 := fun a => Except.ok a }

/-! ## Helper lemmas -/

/-- A name produced by `_gen_job_name` is not a key of `self.jobs`. -/
theorem gen_job_name_fresh {jobs : Dict JobInfo} {cands : List String}
    {n : String} (h : gen_job_name jobs cands = some n) :
    dmem jobs n = false := by
  unfold gen_job_name at h
  have hp := List.find?_some h
  simpa using hp

/-- After `d[k] = v`, the key `k` is a member. -/
theorem dmem_dinsert_self {α : Type} (d : Dict α) (k : String) (v : α) :
    dmem (dinsert d k v) k = true := by
  induction d with
  | nil => simp [dinsert, dmem, dlookup]
  | cons p rest ih =>
      by_cases h : p.1 = k
      · simp [dinsert, h, dmem, dlookup]
      · simpa [dinsert, h, dmem, dlookup] using ih

/-- `__init__.py` does not match the scan glob (its first character is an
underscore, outside `[a-zA-Z]`). -/
theorem matchesGlob_init : matchesGlob "__init__.py" = false := by decide

/-! ## Claim theorems -/

/-- C1: evaluation of the code at the failing input.  A job submitted as
`{'script': 'result = 1'}` is accepted, runs to completion, and
`job_done` fires; afterwards its name is gone from the jobs and runners
registries but is still a key of the contexts registry, so the name is
not absent from all three registries once the job is terminal. -/
theorem C1_contexts_entry_survives_job_done :
    (let st1 := (submit_job trivPipeline EngineState.empty
        [("script", "result = 1")] ["J0a1b2c3"]).1
     let ctx0 := (dlookup st1.contexts "J0a1b2c3").getD (JobContext.init "J0a1b2c3")
     let beh : ExecBehavior :=
       fun _ l => ExecResult.ok freshGlobals (dinsert l "result" (Value.nat 1))
     let st2 := (job_done st1 (runner_run beh ctx0).ctx).1
     dmem st2.jobs "J0a1b2c3" = false
       ∧ dmem st2.runners "J0a1b2c3" = false
       ∧ dmem st2.contexts "J0a1b2c3" = true) := by
  decide

/-- C2: on every exit of the compiled unit — normal return, a caught
exception, or any other exit — `JobRunner._run` invokes the engine's
`job_done` exactly once before terminating. -/
theorem C2_job_done_called_exactly_once
    (beh : ExecBehavior) (ctx : JobContext) :
    (runner_run beh ctx).doneCalls = 1 := by
  unfold runner_run
  cases beh freshGlobals ctx.scope <;> rfl

/-- C5: an uncaught fault raised by the compiled unit is stored into the
scope's exception slot and does not propagate out of the runner; and
`job_done` emits `JOB_FAILED` carrying the context precisely when the
exception slot is set, `JOB_FINISHED` carrying the context precisely when
it is not. -/
theorem C5_fault_captured_and_reported
    (beh : ExecBehavior) (ctx : JobContext) (st : EngineState)
    (e : Exn) (g1 l1 : Bindings)
    (hrun : beh freshGlobals ctx.scope = ExecResult.exn e g1 l1) :
    ((runner_run beh ctx).ctx.exception = some e
      ∧ (runner_run beh ctx).propagated = false)
    ∧ ∀ c : JobContext,
        ((job_done st c).2 = [Action.send (Event.JOB_FAILED c)]
            ↔ c.exception.isSome = true)
        ∧ ((job_done st c).2 = [Action.send (Event.JOB_FINISHED c)]
            ↔ c.exception = none) := by
  constructor
  · unfold runner_run
    rw [hrun]
    exact ⟨rfl, rfl⟩
  · intro c
    unfold job_done
    cases hc : c.exception <;> simp [hc]

/-- C5 witness: a unit that raises an exception with message `"x"`. -/
theorem C5_fault_captured_and_reported_witness :
    (let e : Exn := ⟨some "x", "x"⟩
     let beh : ExecBehavior := fun g l => ExecResult.exn ⟨some "x", "x"⟩ g l
     let ctx := JobContext.init "j1"
     ((runner_run beh ctx).ctx.exception = some e
       ∧ (runner_run beh ctx).propagated = false)
     ∧ ∀ c : JobContext,
         ((job_done EngineState.empty c).2 = [Action.send (Event.JOB_FAILED c)]
             ↔ c.exception.isSome = true)
         ∧ ((job_done EngineState.empty c).2 = [Action.send (Event.JOB_FINISHED c)]
             ↔ c.exception = none)) :=
  C5_fault_captured_and_reported
    (fun g l => ExecResult.exn ⟨some "x", "x"⟩ g l)
    (JobContext.init "j1") EngineState.empty
    ⟨some "x", "x"⟩ freshGlobals [("ava", Value.avaHandle)] rfl

/-- C6: counterexample to the claim as stated.  A unit that binds
`"result"` and then raises leaves the binding in the scope, yet
`scope.result` stays at its absent default, because the runner copies the
`"result"` binding only on the normal-return path. -/
theorem C6_result_not_copied_on_fault :
    (let ctx := JobContext.init "j1"
     let beh : ExecBehavior :=
       fun g l => ExecResult.exn ⟨some "boom", "boom"⟩ g
         (dinsert l "result" (Value.nat 4))
     dmem (runner_run beh ctx).ctx.scope "result" = true
       ∧ (runner_run beh ctx).ctx.result = none) := by
  decide

/-- C6 amended: after an execution that completes without an uncaught
fault, `scope.result` equals the `"result"` binding of the final scope
when that binding exists, and stays at its absent default otherwise. -/
theorem C6_result_copied_on_normal_completion
    (beh : ExecBehavior) (ctx : JobContext) (g1 l1 : Bindings)
    (hrun : beh freshGlobals ctx.scope = ExecResult.ok g1 l1)
    (hres : ctx.result = none) :
    (runner_run beh ctx).ctx.result = dlookup l1 "result" := by
  unfold runner_run
  rw [hrun]
  by_cases h : dmem l1 "result" = true
  · simp [h]
  · have hnone : dlookup l1 "result" = none := by
      unfold dmem at h
      cases hl : dlookup l1 "result" with
      | none => rfl
      | some v => rw [hl] at h; simp at h
    simp [h, hres, hnone]

/-- C6 amended witness: a unit that binds `"result"` to 4 and returns. -/
theorem C6_result_copied_on_normal_completion_witness :
    (runner_run
        (fun g l => ExecResult.ok g (dinsert l "result" (Value.nat 4)))
        (JobContext.init "j1")).ctx.result
      = dlookup (dinsert [("ava", Value.avaHandle)] "result" (Value.nat 4))
          "result" :=
  C6_result_copied_on_normal_completion
    (fun g l => ExecResult.ok g (dinsert l "result" (Value.nat 4)))
    (JobContext.init "j1") freshGlobals
    (dinsert [("ava", Value.avaHandle)] "result" (Value.nat 4)) rfl rfl

/-- C7: counterexample to the claim as stated.  The ambient global
namespace the runner hands to the compiled unit is fresh but not empty:
it contains exactly the key `__builtin__` bound to an empty dictionary. -/
theorem C7_globals_not_empty :
    (runner_run (fun g l => ExecResult.ok g l) (JobContext.init "j1")).execGlobals
        = [("__builtin__", Value.emptyDict)]
      ∧ (runner_run (fun g l => ExecResult.ok g l)
          (JobContext.init "j1")).execGlobals ≠ [] := by
  decide

/-- C7 amended: the runner executes the compiled unit with the scope's
bindings as the mutable local namespace and, as the ambient global
namespace, a fresh dictionary whose only entry maps the key
`__builtin__` to an empty dictionary. -/
theorem C7_exec_namespaces (beh : ExecBehavior) (ctx : JobContext) :
    (runner_run beh ctx).execLocals = ctx.scope
    ∧ (runner_run beh ctx).execGlobals = [("__builtin__", Value.emptyDict)] := by
  unfold runner_run
  cases beh freshGlobals ctx.scope <;> exact ⟨rfl, rfl⟩

/-- C3: when the payload carries a script that parses, validates and
compiles, `submit_job` returns the generated name synchronously; that name
is absent from the jobs registry immediately before the call and is a key
of all three registries afterwards; and the effect trace registers all
three entries and starts the runner before `JOB_ACCEPTED` is emitted. -/
theorem C3_submit_success
    (pl : Pipeline) (st : EngineState) (job : Dict String)
    (cands : List String) (name script : String) (node : Ast) (acode : Code)
    (hgen : gen_job_name st.jobs cands = some name)
    (hscript : dlookup job "script" = some script)
    (hparse : pl.parse script = Except.ok node)
    (hval : pl.validate node = Except.ok ())
    (hcomp : pl.compile0 node = Except.ok acode) :
    (submit_job pl st job cands).2.1 = some name
    ∧ dmem st.jobs name = false
    ∧ dmem (submit_job pl st job cands).1.jobs name = true
    ∧ dmem (submit_job pl st job cands).1.contexts name = true
    ∧ dmem (submit_job pl st job cands).1.runners name = true
    ∧ (submit_job pl st job cands).2.2 =
        [Action.setJob name, Action.setContext name, Action.setRunner name,
         Action.startRunner name, Action.send (Event.JOB_ACCEPTED name)] := by
  have hpipe : submitPipeline pl job = Except.ok (script, acode) := by
    simp [submitPipeline, getScript, hscript, hparse, hval, hcomp]
  have hsub : submit_job pl st job cands =
      ({ jobs := dinsert st.jobs name ⟨name, script, acode⟩
         contexts := dinsert st.contexts name (JobContext.init name)
         runners := dinsert st.runners name ⟨⟨name, script, acode⟩, name, true⟩ },
       some name,
       [Action.setJob name, Action.setContext name, Action.setRunner name,
        Action.startRunner name, Action.send (Event.JOB_ACCEPTED name)]) := by
    unfold submit_job
    rw [hgen, hpipe]
  rw [hsub]
  refine ⟨rfl, gen_job_name_fresh hgen, ?_, ?_, ?_, rfl⟩
  · exact dmem_dinsert_self st.jobs name ⟨name, script, acode⟩
  · exact dmem_dinsert_self st.contexts name (JobContext.init name)
  · exact dmem_dinsert_self st.runners name ⟨⟨name, script, acode⟩, name, true⟩

/-- C3 witness: submitting `{'script': 'x'}` on an empty engine with the
candidate name `J0a1b2c3`. -/
theorem C3_submit_success_witness :
    (submit_job trivPipeline EngineState.empty [("script", "x")]
        ["J0a1b2c3"]).2.1 = some "J0a1b2c3"
    ∧ dmem EngineState.empty.jobs "J0a1b2c3" = false
    ∧ dmem (submit_job trivPipeline EngineState.empty [("script", "x")]
        ["J0a1b2c3"]).1.jobs "J0a1b2c3" = true
    ∧ dmem (submit_job trivPipeline EngineState.empty [("script", "x")]
        ["J0a1b2c3"]).1.contexts "J0a1b2c3" = true
    ∧ dmem (submit_job trivPipeline EngineState.empty [("script", "x")]
        ["J0a1b2c3"]).1.runners "J0a1b2c3" = true
    ∧ (submit_job trivPipeline EngineState.empty [("script", "x")]
        ["J0a1b2c3"]).2.2 =
        [Action.setJob "J0a1b2c3", Action.setContext "J0a1b2c3",
         Action.setRunner "J0a1b2c3", Action.startRunner "J0a1b2c3",
         Action.send (Event.JOB_ACCEPTED "J0a1b2c3")] :=
  C3_submit_success trivPipeline EngineState.empty [("script", "x")]
    ["J0a1b2c3"] "J0a1b2c3" "x" "x" "x" (by decide) (by decide) rfl rfl rfl

/-- C4: when the script fails to parse, validate or compile with an
exception whose message text `m` is non-empty, `submit_job` leaves the
registries exactly as they were, returns no name, and its only bus
emission is a single `JOB_REJECTED` carrying `m`. -/
theorem C4_submit_rejection
    (pl : Pipeline) (st : EngineState) (job : Dict String)
    (cands : List String) (name script m : String) (ex : Exn)
    (hgen : gen_job_name st.jobs cands = some name)
    (hscript : dlookup job "script" = some script)
    (hfail : pl.parse script = Except.error ex
      ∨ (∃ node, pl.parse script = Except.ok node
           ∧ pl.validate node = Except.error ex)
      ∨ (∃ node, pl.parse script = Except.ok node
           ∧ pl.validate node = Except.ok ()
           ∧ pl.compile0 node = Except.error ex))
    (hmsg : ex.message = some m) (hmlen : 0 < m.length) :
    submit_job pl st job cands =
      (st, none,
       [Action.logError name, Action.send (Event.JOB_REJECTED m)])
    ∧ ((submit_job pl st job cands).2.2.filter Action.isSend).length = 1 := by
  have hreason : reasonOf ex = m := by
    unfold reasonOf
    rw [hmsg]
    simp [hmlen]
  have hpipe : submitPipeline pl job = Except.error ex := by
    rcases hfail with hp | ⟨node, hpn, hv⟩ | ⟨node, hpn, hv, hc⟩
    · simp [submitPipeline, getScript, hscript, hp]
    · simp [submitPipeline, getScript, hscript, hpn, hv]
    · simp [submitPipeline, getScript, hscript, hpn, hv, hc]
  have hsub : submit_job pl st job cands =
      (st, none,
       [Action.logError name, Action.send (Event.JOB_REJECTED m)]) := by
    unfold submit_job
    rw [hgen]
    simp [hpipe, hreason]
  exact ⟨hsub, by rw [hsub]; rfl⟩

/-- C4 witness: a payload whose script hits a parse failure with message
`invalid syntax`. -/
theorem C4_submit_rejection_witness :
    submit_job badParsePipeline EngineState.empty [("script", "x +")]
        ["J0a1b2c3"] =
      (EngineState.empty, none,
       [Action.logError "J0a1b2c3",
        Action.send (Event.JOB_REJECTED "invalid syntax")])
    ∧ ((submit_job badParsePipeline EngineState.empty [("script", "x +")]
        ["J0a1b2c3"]).2.2.filter Action.isSend).length = 1 :=
  C4_submit_rejection badParsePipeline EngineState.empty [("script", "x +")]
    ["J0a1b2c3"] "J0a1b2c3" "x +" "invalid syntax" parseFailExn
    (by decide) (by decide) (Or.inl rfl) rfl (by decide)

/-- C10: when the payload has no `script` field, the `KeyError` raised by
the lookup is caught inside `submit_job`: no exception reaches the
caller, the registries are unchanged, no name is returned, and the only
bus emission is one `JOB_REJECTED` whose reason is the non-empty
`KeyError` message `script`. -/
theorem C10_missing_script_rejected
    (pl : Pipeline) (st : EngineState) (job : Dict String)
    (cands : List String) (name : String)
    (hgen : gen_job_name st.jobs cands = some name)
    (hnos : dlookup job "script" = none) :
    submit_job pl st job cands =
      (st, none,
       [Action.logError name, Action.send (Event.JOB_REJECTED "script")])
    ∧ ((submit_job pl st job cands).2.2.filter Action.isSend).length = 1
    ∧ 0 < ("script" : String).length := by
  have hpipe : submitPipeline pl job = Except.error (keyError "script") := by
    simp [submitPipeline, getScript, hnos]
  have hreason : reasonOf (keyError "script") = "script" := by decide
  have hsub : submit_job pl st job cands =
      (st, none,
       [Action.logError name, Action.send (Event.JOB_REJECTED "script")]) := by
    unfold submit_job
    rw [hgen]
    simp [hpipe, hreason]
  exact ⟨hsub, by rw [hsub]; rfl, by decide⟩

/-- C10 witness: submitting an empty payload on an empty engine. -/
theorem C10_missing_script_rejected_witness :
    submit_job trivPipeline EngineState.empty [] ["J0a1b2c3"] =
      (EngineState.empty, none,
       [Action.logError "J0a1b2c3",
        Action.send (Event.JOB_REJECTED "script")])
    ∧ ((submit_job trivPipeline EngineState.empty [] ["J0a1b2c3"]).2.2.filter
        Action.isSend).length = 1
    ∧ 0 < ("script" : String).length :=
  C10_missing_script_rejected trivPipeline EngineState.empty []
    ["J0a1b2c3"] "J0a1b2c3" (by decide) rfl

/-- C8: when a scanned file fails to read, parse, validate or compile,
`_load_jobs` logs the failure and registers nothing for it, the loop
continues over the remaining files exactly as if the file were not there
(apart from the log record), and no event-bus signal is emitted. -/
theorem C8_discovery_failure_skips_file
    (pl : Pipeline) (st : EngineState) (f : FileEntry) (rest : List FileEntry)
    (hmatch : matchesGlob f.basename = true)
    (hfail : (∃ ex, f.content = Except.error ex)
      ∨ (∃ script ex, f.content = Except.ok script
           ∧ pl.parse script = Except.error ex)
      ∨ (∃ script node ex, f.content = Except.ok script
           ∧ pl.parse script = Except.ok node
           ∧ pl.validate node = Except.error ex)
      ∨ (∃ script node ex, f.content = Except.ok script
           ∧ pl.parse script = Except.ok node
           ∧ pl.validate node = Except.ok ()
           ∧ pl.compile0 node = Except.error ex)) :
    load_one pl st f = (st, [Action.logError (splitextStem f.basename)])
    ∧ load_many pl st (f :: rest) =
        ((load_many pl st rest).1,
         Action.logError (splitextStem f.basename) :: (load_many pl st rest).2)
    ∧ (load_one pl st f).2.filter Action.isSend = [] := by
  have hne : f.basename ≠ "__init__.py" := by
    intro h
    rw [h, matchesGlob_init] at hmatch
    exact Bool.noConfusion hmatch
  have hpipe : ∃ ex, loadPipeline pl f = Except.error ex := by
    rcases hfail with ⟨ex, hr⟩ | ⟨script, ex, hr, hp⟩
      | ⟨script, node, ex, hr, hp, hv⟩ | ⟨script, node, ex, hr, hp, hv, hc⟩
    · exact ⟨ex, by simp [loadPipeline, hr]⟩
    · exact ⟨ex, by simp [loadPipeline, hr, hp]⟩
    · exact ⟨ex, by simp [loadPipeline, hr, hp, hv]⟩
    · exact ⟨ex, by simp [loadPipeline, hr, hp, hv, hc]⟩
  obtain ⟨ex, hpe⟩ := hpipe
  have h1 : load_one pl st f =
      (st, [Action.logError (splitextStem f.basename)]) := by
    unfold load_one
    rw [if_neg hne]
    simp [hpe]
  refine ⟨h1, ?_, by rw [h1]; rfl⟩
  simp [load_many, h1]

/-- C8 witness: a file `bad_job.py` whose script hits a parse failure,
followed by an empty remainder of the scan. -/
theorem C8_discovery_failure_skips_file_witness :
    load_one badParsePipeline EngineState.empty ⟨"bad_job.py", Except.ok "x"⟩
        = (EngineState.empty, [Action.logError "bad_job"])
    ∧ load_many badParsePipeline EngineState.empty
        [⟨"bad_job.py", Except.ok "x"⟩] =
        ((load_many badParsePipeline EngineState.empty []).1,
         Action.logError "bad_job"
           :: (load_many badParsePipeline EngineState.empty []).2)
    ∧ (load_one badParsePipeline EngineState.empty
        ⟨"bad_job.py", Except.ok "x"⟩).2.filter Action.isSend = [] := by
  have h := C8_discovery_failure_skips_file badParsePipeline EngineState.empty
    ⟨"bad_job.py", Except.ok "x"⟩ [] (by decide)
    (Or.inr (Or.inl ⟨"x", parseFailExn, rfl, rfl⟩))
  simpa using h

/-- C9: counterexample to the claim as stated.  Per the claim, `a.py`
should be loaded (its stem `a` matches `[A-Za-z][A-Za-z0-9_]*` and its
suffix is recognized), yet the scan glob requires at least two characters
before `.py`, so discovery loads nothing from a directory holding only
`a.py`; conversely `ab-c.py` is loaded and registered under `ab-c`
although that stem does not match the identifier pattern. -/
theorem C9_glob_is_not_ident_pattern :
    matchesIdent (splitextStem "a.py") = true
    ∧ "a.py" = "a" ++ ".py"
    ∧ load_jobs trivPipeline EngineState.empty [⟨"a.py", Except.ok "x"⟩]
        = (EngineState.empty, [])
    ∧ matchesIdent (splitextStem "ab-c.py") = false
    ∧ dmem (load_jobs trivPipeline EngineState.empty
        [⟨"ab-c.py", Except.ok "x"⟩]).1.jobs "ab-c" = true := by
  decide

/-- C9 amended: discovery considers exactly the directory entries whose
full file name matches the shell glob `[a-zA-Z][a-zA-Z0-9_]*.py` — a
letter, a letter/digit/underscore, then any run of characters, ending in
`.py` — and `__init__.py` never matches it; the loader runs over
precisely the scan's selection. -/
theorem C9_scan_selects_glob_matches
    (dir : List FileEntry) (f : FileEntry) (hf : f ∈ dir) :
    (f ∈ scan_jobs dir ↔ matchesGlob f.basename = true)
    ∧ matchesGlob "__init__.py" = false
    ∧ ∀ pl st, load_jobs pl st dir = load_many pl st (scan_jobs dir) := by
  refine ⟨?_, matchesGlob_init, fun _ _ => rfl⟩
  constructor
  · intro hm
    exact (List.mem_filter.mp hm).2
  · intro hm
    exact List.mem_filter.mpr ⟨hf, hm⟩

/-- C9 amended witness: a directory holding the single file `ab.py`. -/
theorem C9_scan_selects_glob_matches_witness :
    ((⟨"ab.py", Except.ok "x"⟩ : FileEntry)
        ∈ scan_jobs [⟨"ab.py", Except.ok "x"⟩]
      ↔ matchesGlob "ab.py" = true)
    ∧ matchesGlob "__init__.py" = false
    ∧ ∀ pl st, load_jobs pl st [⟨"ab.py", Except.ok "x"⟩]
        = load_many pl st (scan_jobs [⟨"ab.py", Except.ok "x"⟩]) :=
  C9_scan_selects_glob_matches [⟨"ab.py", Except.ok "x"⟩]
    ⟨"ab.py", Except.ok "x"⟩ (List.mem_singleton.mpr rfl)

end AvaJob
